import Mathlib

/-!
Verification of the asantiya accessory lifecycle reconciler.

This file shallowly embeds the Python sources of the asantiya repository
(`asantiya/docker_manager.py`, `asantiya/utils/docker.py`,
`asantiya/schemas/models.py`) into Lean 4 and proves or refutes the frozen
claims about it.

Embedding conventions:
* Python dicts are association lists `List (String × α)` in insertion order;
  dict assignment `d[k] = v` is `dictInsert`, which updates in place (keeping
  the key's first-insertion position) or appends.
* The Docker runtime is a `World` record: the containers, images and networks
  the daemon holds, plus error tables that decide which runtime API calls
  fail (and with which `explanation`), a fresh-id counter, and a counter of
  how many `containers.run` creations have been performed.
* Python exceptions are `Except PyError`; each operation returns its updated
  `World` together with its result.  `str(e)` is `PyError.str`.
* The `DockerManager` object is `Mgr`; methods that the claims quantify over
  take and return the `Mgr` explicitly (Python `self`), so that the frame
  claim (the configuration is never mutated) is statable.
* Calls the claims never exercise with failures (`container.stop`,
  `container.start`, `container.remove`, `container.restart`) are modelled as
  succeeding; their failure branches in the source only feed the same
  per-item error reporting paths that are already exercised through the
  not-found branches.
-/

namespace Asantiya

/-- Python exception values, tagged by class (`docker.errors.APIError` is
`apiError`; its `explanation` attribute is the payload). -/
inductive PyError where
  | valueError (msg : String)
  | runtimeError (msg : String)
  | apiError (explanation : String)
  | keyError (key : String)
deriving Repr, DecidableEq

/-- Python `str(e)` on an exception. -/
def PyError.str : PyError → String
  | .valueError m => m
  | .runtimeError m => m
  | .apiError m => m
  | .keyError k => "\x27" ++ k ++ "\x27"

/-- `schemas/models.py` `ContainerOptions`. -/
structure ContainerOptions where
  restart : String := "always"
deriving Repr, DecidableEq

/-- `schemas/models.py` `Builder` (build fields are opaque to the claims). -/
structure Builder where
  arch : String := "amd64"
  remote : String := ""
  «local» : Bool := false
  dockerfile : String := "."
  build_args : List (String × String) := []
deriving Repr, DecidableEq

/-- `schemas/models.py` `AccessoryConfig`.  `healthcheck` is an opaque
optional blob in the source and is unused by the reconciler. -/
structure AccessoryConfig where
  image : String
  service : Option String := none
  network : String
  ports : String
  env : List (String × String) := []
  options : ContainerOptions := {}
  volumes : List String := []
  depends_on : List String := []
  healthcheck : Option String := none
deriving Repr, DecidableEq

/-- `schemas/models.py` `AppConfig`; `accessories` is an insertion-ordered
dict keyed by accessory name. -/
structure AppConfig where
  service : String := "asantiya"
  image : String := "asantiya-service"
  server : String := "$\x7bSERVER\x7d"
  app_ports : String := "8020:8020"
  builder : Builder := {}
  accessories : List (String × AccessoryConfig) := []
  environment : List (String × String) := []
  volumes : List String := []
  network : String := "asantiya-network"
deriving Repr, DecidableEq

/-- The `DockerManager` object: the part of `self` the reconciler reads,
its loaded configuration. -/
structure Mgr where
  config : AppConfig
deriving Repr, DecidableEq

/-- A container held by the Docker daemon. -/
structure Container where
  name : String
  id : String
  status : String
  image : String
deriving Repr, DecidableEq

/-- The Docker daemon state plus the failure oracle for runtime API calls:
`pullErrors`, `runErrors`, `netCreateErrors` and `imageRemoveErrors` list,
per resource name, the `APIError.explanation` that call would raise;
`buildError` plays that role for `api.build`.  `nextId` numbers fresh
containers and `createCount` counts `containers.run` creations. -/
structure World where
  containers : List Container := []
  images : List String := []
  networks : List String := []
  pullErrors : List (String × String) := []
  runErrors : List (String × String) := []
  netCreateErrors : List (String × String) := []
  imageRemoveErrors : List (String × String) := []
  buildError : Option String := none
  nextId : Nat := 0
  createCount : Nat := 0
deriving Repr, DecidableEq

/-- `client.containers.get(name)`: the first container with that name. -/
def World.findContainer (w : World) (name : String) : Option Container :=
  w.containers.find? (fun c => c.name = name)

/-- `container.stop()` / `container.start()` / `container.restart()`:
set the status of the container(s) with the given name. -/
def World.setStatus (w : World) (name status : String) : World :=
  { w with containers :=
      w.containers.map (fun c => if c.name = name then { c with status := status } else c) }

/-- `container.remove()`: drop the container(s) with the given name. -/
def World.removeContainer (w : World) (name : String) : World :=
  { w with containers := w.containers.filter (fun c => ¬ c.name = name) }

/-- Python dict assignment `d[k] = v` on an insertion-ordered dict: update
the value in place if the key exists, else append. -/
def dictInsert {α : Type} (k : String) (v : α) : List (String × α) → List (String × α)
  | [] => [(k, v)]
  | p :: rest => if p.1 = k then (k, v) :: rest else p :: dictInsert k v rest

/-! ## Dependency resolver (`utils/docker.py`, `sort_by_dependencies`)

Kahn's algorithm.  The Python builds `graph = {name: set(cfg.depends_on)}` —
a fresh set per accessory, copied from the config — seeds `no_deps` with the
names whose set is empty, then repeatedly pops the LAST element of `no_deps`,
appends it to `ordered`, removes it from every remaining dependency set, and
enqueues the names whose set just became empty, in graph (= insertion) order.

We keep the worklist reversed (Python's `list.pop()` takes the last element,
so the head of our `stack` is Python's end of `no_deps`; `no_deps.append`
and bulk enqueueing become `newly.reverse ++ stack`).  Dependency sets are
`List String` built with `dedup` (only membership and emptiness of a set are
ever consulted, so the representation order is irrelevant).  The loop is
given fuel; `sort_by_dependencies` passes fuel that provably dominates the
loop's termination measure (`kahnRemove_measure` shows the measure falls at
least as fast as the fuel, and `kahnLoop_inv` carries the bound), so the
fuel-exhaustion branch is never taken. -/

/-- One iteration of the removal pass for a popped `node`: the updated graph
(`deps.remove(node)` applied to every set containing `node`) and the names
whose dependency set just became empty, in graph order. -/
def kahnRemove (node : String) (graph : List (String × List String)) :
    List (String × List String) × List String :=
  (graph.map (fun p => if node ∈ p.2 then (p.1, p.2.filter (fun d => d ≠ node)) else p),
   (graph.filter (fun p => node ∈ p.2 ∧ p.2.filter (fun d => d ≠ node) = [])).map Prod.fst)

/-- The `while no_deps:` loop of `sort_by_dependencies`. -/
def kahnLoop (fuel : Nat) (graph : List (String × List String))
    (stack ordered : List String) : List String :=
  match fuel, stack with
  | _, [] => ordered
  | 0, _ :: _ => ordered
  | fuel + 1, node :: rest =>
      let gr := kahnRemove node graph
      kahnLoop fuel gr.1 (gr.2.reverse ++ rest) (ordered ++ [node])

/-- Total size of all dependency sets (the loop's termination measure,
together with the worklist length). -/
def sumDeps (graph : List (String × List String)) : Nat :=
  (graph.map (fun p => p.2.length)).sum

/-- `no_deps = [name for name, deps in graph.items() if not deps]`. -/
def initReady (graph : List (String × List String)) : List String :=
  (graph.filter (fun p => p.2.isEmpty)).map Prod.fst

/-- `graph = {name: set(cfg.depends_on) for name, cfg in configs.items()}` —
note the per-entry copy of the dependency list. -/
def graphOf (configs : List (String × AccessoryConfig)) : List (String × List String) :=
  configs.map (fun p => (p.1, p.2.depends_on.dedup))

/-- `utils/docker.py` `sort_by_dependencies`: Kahn's algorithm; raises
`ValueError("Circular dependency detected")` when the ordering is shorter
than the input. -/
def sort_by_dependencies (configs : List (String × AccessoryConfig)) :
    Except String (List String) :=
  let graph := graphOf configs
  let no_deps := initReady graph
  let ordered := kahnLoop (sumDeps graph + no_deps.length) graph no_deps.reverse []
  if ordered.length ≠ configs.length then Except.error "Circular dependency detected"
  else Except.ok ordered

/-- The dependency set a graph records for `n` (empty if `n` is no key). -/
def depsOf (orig : List (String × List String)) (n : String) : List String :=
  ((orig.find? (fun p => p.1 = n)).map Prod.snd).getD []

/-- `l` lists every key of `orig` exactly once, with every name strictly
after all names in its dependency set (the set membership is via `depsOf`).
This is the standard characterisation of a topological order. -/
def IsTopoOrder (orig : List (String × List String)) (l : List String) : Prop :=
  l.Perm (orig.map Prod.fst) ∧
    ∀ i, i < l.length → ∀ d ∈ depsOf orig (l.getD i ""), d ∈ l.take i

/-- A finite dependency graph is acyclic iff it admits a topological order. -/
def Acyclic (orig : List (String × List String)) : Prop :=
  ∃ l, IsTopoOrder orig l

/-- The graph has a dependency cycle: some name reaches itself through the
"depends on" edges. -/
def HasCycle (orig : List (String × List String)) : Prop :=
  ∃ n, Relation.TransGen (fun a b => b ∈ depsOf orig a) n n

/-- Substring test used to state what an error message does (not) name. -/
def strContainsSub (s sub : String) : Bool :=
  s.data.tails.any (fun t => sub.data.isPrefixOf t)

/-! ## Network and image provisioning (`utils/docker.py`, `docker_manager.py`) -/

/-- `utils/docker.py` `ensure_network`: list networks by name, create with the
bridge driver only when absent; any `APIError` raised by the creation call is
re-raised as `RuntimeError("Network creation failed: ...")`. -/
def ensure_network (network_name : String) (w : World) : World × Except PyError Unit :=
  if network_name ∈ w.networks then (w, Except.ok ())
  else
    match w.netCreateErrors.lookup network_name with
    | some expl => (w, Except.error (.runtimeError ("Network creation failed: " ++ expl)))
    | none => ({ w with networks := w.networks ++ [network_name] }, Except.ok ())

/-- `docker_manager.py` `pull_images` specialised to the single-image list
`create_accessory` passes: inspect locally, skip if present, else pull;
a pull failure surfaces as the runtime's `APIError`. -/
def pull_image (img : String) (w : World) : World × Except PyError Unit :=
  if img ∈ w.images then (w, Except.ok ())
  else
    match w.pullErrors.lookup img with
    | some expl => (w, Except.error (.apiError expl))
    | none => ({ w with images := w.images ++ [img] }, Except.ok ())

/-- `docker_manager.py` `delete_image`: `ValueError` on an empty name;
`False` when the image is not found; `True` after successful removal;
`RuntimeError("Failed to delete ...")` when the removal call raises
`APIError`. -/
def delete_image (image_name : String) (force prune : Bool) (w : World) :
    World × Except PyError Bool :=
  if image_name = "" then (w, Except.error (.valueError "Image name cannot be empty"))
  else if image_name ∈ w.images then
    match w.imageRemoveErrors.lookup image_name with
    | some expl =>
        (w, Except.error (.runtimeError ("Failed to delete " ++ image_name ++ ": " ++ expl)))
    | none => ({ w with images := w.images.filter (fun i => ¬ i = image_name) }, Except.ok true)
  else (w, Except.ok false)

/-! ## Lifecycle reconciler (`docker_manager.py`) -/

/-- `_get_service_name`: the configured service name, defaulting to
`asantiya-<name>`. -/
def _get_service_name (accessory : AccessoryConfig) (service_name : String) : String :=
  accessory.service.getD ("asantiya-" ++ service_name)

/-- `_find_accessory_by_name`: scan the configured accessories in order and
return the first resolved service name equal to `name` (None otherwise). -/
def _find_accessory_by_name (cfg : AppConfig) (name : String) : Option String :=
  (cfg.accessories.find? (fun p => name = _get_service_name p.2 p.1)).map
    (fun p => _get_service_name p.2 p.1)

/-- `create_accessory`: reuse a running container unchanged; start a stopped
one in place; otherwise ensure network and image, then `containers.run` a new
container.  An `APIError` from pull or run is re-raised as
`RuntimeError("Failed to create <service>: ...")`; the `RuntimeError` that
`ensure_network` raises is not an `APIError` and propagates unchanged. -/
def create_accessory (m : Mgr) (config : AccessoryConfig) (service_name : String)
    (w : World) : Mgr × World × Except PyError Container :=
  let sname := config.service.getD ("asantiya-" ++ service_name)
  match w.findContainer sname with
  | some existing =>
      if existing.status = "running" then (m, w, Except.ok existing)
      else (m, w.setStatus sname "running", Except.ok { existing with status := "running" })
  | none =>
      match ensure_network config.network w with
      | (w1, Except.error e) => (m, w1, Except.error e)
      | (w1, Except.ok _) =>
          match pull_image config.image w1 with
          | (w2, Except.error (.apiError expl)) =>
              (m, w2, Except.error (.runtimeError ("Failed to create " ++ sname ++ ": " ++ expl)))
          | (w2, Except.error e) => (m, w2, Except.error e)
          | (w2, Except.ok _) =>
              match w2.runErrors.lookup sname with
              | some expl =>
                  (m, w2, Except.error
                    (.runtimeError ("Failed to create " ++ sname ++ ": " ++ expl)))
              | none =>
                  let c : Container :=
                    { name := sname, id := "cid" ++ toString w2.nextId,
                      status := "running", image := config.image }
                  (m, { w2 with containers := w2.containers ++ [c],
                                nextId := w2.nextId + 1,
                                createCount := w2.createCount + 1 }, Except.ok c)

/-- The `for service_name in ordered_services:` loop of
`create_all_accessories`: create in order, abort on the first failure with
`RuntimeError("Failed to start <name>. Aborting. Error: <str(e)>")`. -/
def createAllLoop (m : Mgr) (configs : List (String × AccessoryConfig)) :
    List String → World → List (String × String) →
    Mgr × World × Except PyError (List (String × String))
  | [], w, results => (m, w, Except.ok results)
  | name :: rest, w, results =>
      match configs.lookup name with
      | none => (m, w, Except.error (.keyError name))
      | some config =>
          match create_accessory m config name w with
          | (m', w', Except.ok c) => createAllLoop m' configs rest w' (results ++ [(name, c.id)])
          | (m', w', Except.error e) =>
              (m', w', Except.error
                (.runtimeError ("Failed to start " ++ name ++ ". Aborting. Error: " ++ e.str)))

/-- `create_all_accessories`: resolve the dependency order, then create each
accessory in that order, returning the ordered name→container-id map. -/
def create_all_accessories (m : Mgr) (w : World) :
    Mgr × World × Except PyError (List (String × String)) :=
  match sort_by_dependencies m.config.accessories with
  | Except.error e => (m, w, Except.error (.valueError e))
  | Except.ok ordered_services => createAllLoop m m.config.accessories ordered_services w []

/-- `stop_accessory`: resolve the requested name against the configuration,
stop (and with `force` remove) the matching container.  The method's outer
`except Exception` re-wraps the inner `ValueError`s as
`RuntimeError("Unexpected error removing container <name>: ...")` when
`raise_errors` is set; with `raise_errors` unset every failure is swallowed
and the method returns normally.  An unknown requested name returns silently
in both modes. -/
def stop_accessory (cfg : AppConfig) (name : String) (force raise_errors : Bool)
    (w : World) : World × Except PyError Unit :=
  if name = "" then
    (w, if raise_errors then
          Except.error (.runtimeError
            ("Unexpected error removing container " ++ name ++
              ": Invalid container name: " ++ name))
        else Except.ok ())
  else
    match _find_accessory_by_name cfg name with
    | none => (w, Except.ok ())
    | some sname =>
        match w.findContainer sname with
        | none =>
            (w, if raise_errors then
                  Except.error (.runtimeError
                    ("Unexpected error removing container " ++ sname ++
                      ": Container " ++ sname ++ " not found"))
                else Except.ok ())
        | some c =>
            let w1 := if c.status = "running" then w.setStatus sname "exited" else w
            let w2 := if force then w1.removeContainer sname else w1
            (w2, Except.ok ())

/-- The `for name in names:` loop of `stop_accessories`: each item's outcome
is recorded in the results dict (`True` on normal return, `str(e)` when the
item raised); no item aborts the batch. -/
def stopAccessoriesLoop (cfg : AppConfig) (force raise_errors : Bool) :
    List String → World → List (String × Sum Bool String) →
    World × List (String × Sum Bool String)
  | [], w, results => (w, results)
  | name :: rest, w, results =>
      match stop_accessory cfg name force raise_errors w with
      | (w', Except.ok _) =>
          stopAccessoriesLoop cfg force raise_errors rest w' (dictInsert name (Sum.inl true) results)
      | (w', Except.error e) =>
          stopAccessoriesLoop cfg force raise_errors rest w' (dictInsert name (Sum.inr e.str) results)

/-- `stop_accessories`: best-effort batch stop with per-item status dict. -/
def stop_accessories (m : Mgr) (names : List String) (force raise_errors : Bool)
    (w : World) : Mgr × World × List (String × Sum Bool String) :=
  let r := stopAccessoriesLoop m.config force raise_errors names w []
  (m, r.1, r.2)

/-- The `for name in names:` loop of `restart_accessories`.  `containers.get`
uses the requested name directly; a stopped container with `force_restart`
unset is reported non-fatally and not started; `container.restart` starts it
regardless of state otherwise.  With `raise_errors` set the not-found branch
re-raises, aborting the whole batch (the partial dict is lost). -/
def restartLoop (timeout : Nat) (force_restart raise_errors : Bool) :
    List String → World → List (String × Sum Bool String) →
    World × Except PyError (List (String × Sum Bool String))
  | [], w, results => (w, Except.ok results)
  | name :: rest, w, results =>
      if name = "" then
        restartLoop timeout force_restart raise_errors rest w
          (dictInsert name (Sum.inr ("Invalid container name: " ++ name)) results)
      else
        match w.findContainer name with
        | none =>
            let msg := "Container " ++ name ++ " not found"
            if raise_errors then (w, Except.error (.valueError msg))
            else restartLoop timeout force_restart raise_errors rest w
              (dictInsert name (Sum.inr msg) results)
        | some c =>
            if c.status ≠ "running" ∧ ¬ force_restart then
              restartLoop timeout force_restart raise_errors rest w
                (dictInsert name
                  (Sum.inr ("Container " ++ name ++ " is not running (status: " ++ c.status ++
                    "). Use --force or -f to force restart")) results)
            else
              restartLoop timeout force_restart raise_errors rest (w.setStatus name "running")
                (dictInsert name (Sum.inl true) results)

/-- `restart_accessories`: best-effort batch restart with per-item dict. -/
def restart_accessories (m : Mgr) (names : List String) (timeout : Nat)
    (force_restart raise_errors : Bool) (w : World) :
    Mgr × World × Except PyError (List (String × Sum Bool String)) :=
  let r := restartLoop timeout force_restart raise_errors names w []
  (m, r.1, r.2)

/-- `reboot_single_accessory`: stop and remove the accessory's container
(warning only when absent), then `create_accessory` it afresh; any failure is
returned as this item's error string. -/
def reboot_single_accessory (m : Mgr) (accessory_name : String) (force : Bool)
    (w : World) : Mgr × World × Sum Bool String :=
  match m.config.accessories.lookup accessory_name with
  | none =>
      (m, w, Sum.inr ("Accessory \x27" ++ accessory_name ++ "\x27 not found in configuration"))
  | some accessory =>
      let container_name := accessory.service.getD ""
      let w1 :=
        match w.findContainer container_name with
        | some c =>
            ((if c.status = "running" then w.setStatus container_name "exited"
              else w).removeContainer container_name)
        | none => w
      match create_accessory m accessory accessory_name w1 with
      | (m', w2, Except.ok _) => (m', w2, Sum.inl true)
      | (m', w2, Except.error e) =>
          (m', w2, Sum.inr ("Failed to reboot " ++ accessory_name ++ ": " ++ e.str))

/-- The `for accessory_name in ...keys():` loop of `reboot_all_accessories`. -/
def rebootAllLoop (force : Bool) : Mgr → List String → World → Mgr × World
  | m, [], w => (m, w)
  | m, name :: rest, w =>
      let r := reboot_single_accessory m name force w
      rebootAllLoop force r.1 rest r.2.1

/-- `reboot_all_accessories`: reboot every configured accessory in
configuration order, ignoring per-item results. -/
def reboot_all_accessories (m : Mgr) (force : Bool) (w : World) : Mgr × World :=
  rebootAllLoop force m (m.config.accessories.map Prod.fst) w

/-- `_get_container_table_rows`: one row per configured accessory, joined
against the daemon's containers by resolved service name; unmatched
accessories report "Not created".  (The uptime/ports pretty-printing of the
source reads wall-clock timestamps and is abstracted to the raw status and an
empty ports cell.) -/
def _get_container_table_rows (configs : List (String × AccessoryConfig))
    (all_containers : List Container) : List (List String) :=
  configs.map (fun p =>
    match all_containers.find? (fun c => c.name = _get_service_name p.2 p.1) with
    | some matched =>
        [matched.id.take 12, matched.image.take 20, matched.status, "", matched.name]
    | none => ["-", "-", "Not created", "-", (p.2.service.getD "")])

/-- `list_configured_containers`: read the daemon's containers and render the
configured accessories against them. -/
def list_configured_containers (m : Mgr) (w : World) : Mgr × World × List (List String) :=
  (m, w, _get_container_table_rows m.config.accessories w.containers)

/-- `list_accessory_services`: the configured service names, in order.  A
`None` service is modelled as `""`: both fail `stop_accessory`'s
`if not name` truthiness check identically. -/
def list_accessory_services (cfg : AppConfig) : List String :=
  cfg.accessories.map (fun p => p.2.service.getD "")

/-- `stop_app_container`: stop (and with `force` remove) the application
container; not-found and API errors are logged and swallowed. -/
def stop_app_container (cfg : AppConfig) (force : Bool) (w : World) : World :=
  match w.findContainer cfg.service with
  | none => w
  | some c =>
      let w1 := if c.status = "running" then w.setStatus cfg.service "exited" else w
      if force then w1.removeContainer cfg.service else w1

/-- `build_image_from_dockerfile`: stream a build; on success the tag is
available as a local image, a build error raises `RuntimeError`. -/
def build_image_from_dockerfile (builder : Builder) (tag : String) (w : World) :
    World × Except PyError String :=
  match w.buildError with
  | some msg => (w, Except.error (.runtimeError msg))
  | none => ({ w with images := w.images ++ [tag] }, Except.ok tag)

/-- The stop/teardown prefix of `deploy_app`: stop and force-remove the app
container, then force-stop (and remove) every configured accessory. -/
def deploy_app_stops (m : Mgr) (w : World) : World :=
  let w1 := stop_app_container m.config true w
  (stopAccessoriesLoop m.config true false (list_accessory_services m.config) w1 []).1

/-- The continuation of `deploy_app` after the image deletion: rebuild the
image, recreate all accessories, then run the application container.  Every
failure is re-wrapped by the method's outer `except Exception` as
`RuntimeError("Unexpected error: ...")`; a `NotFound` from the final run is
swallowed and yields `None`. -/
def deploy_app_after_delete (m : Mgr) (w : World) :
    Mgr × World × Except PyError (Option Container) :=
  match build_image_from_dockerfile m.config.builder m.config.image w with
  | (w1, Except.error e) =>
      (m, w1, Except.error (.runtimeError ("Unexpected error: " ++ e.str)))
  | (w1, Except.ok image) =>
      match create_all_accessories m w1 with
      | (m', w2, Except.error e) =>
          (m', w2, Except.error (.runtimeError ("Unexpected error: " ++ e.str)))
      | (m', w2, Except.ok _results) =>
          match w2.runErrors.lookup m'.config.service with
          | some expl =>
              (m', w2, Except.error (.runtimeError
                ("Unexpected error: Failed to run " ++ m'.config.service ++ ": " ++ expl)))
          | none =>
              let c : Container :=
                { name := m'.config.service, id := "cid" ++ toString w2.nextId,
                  status := "running", image := image }
              (m', { w2 with containers := w2.containers ++ [c],
                             nextId := w2.nextId + 1,
                             createCount := w2.createCount + 1 }, Except.ok (some c))

/-- `deploy_app`: stop everything, delete the application image, rebuild,
recreate all accessories, and run the application container.  A
`RuntimeError` escaping `delete_image` aborts the rest through the outer
`except Exception`. -/
def deploy_app (m : Mgr) (w : World) : Mgr × World × Except PyError (Option Container) :=
  let w1 := deploy_app_stops m w
  match delete_image m.config.image true true w1 with
  | (w2, Except.error e) =>
      (m, w2, Except.error (.runtimeError ("Unexpected error: " ++ e.str)))
  | (w2, Except.ok _) => deploy_app_after_delete m w2

/-- `remove_app`: stop and force-remove the app container, force-stop all
accessories, then delete the application image without any exception
handler of its own. -/
def remove_app (m : Mgr) (w : World) : Mgr × World × Except PyError Unit :=
  let w1 := stop_app_container m.config true w
  let w2 := (stopAccessoriesLoop m.config true false (list_accessory_services m.config) w1 []).1
  match delete_image m.config.image true true w2 with
  | (w3, Except.error e) => (m, w3, Except.error e)
  | (w3, Except.ok _) => (m, w3, Except.ok ())


/-! ## Concrete fixtures used by witnesses and counterexamples -/

/-- An accessory whose configured service name is `svc-a`. -/
def accSvcA : AccessoryConfig :=
  { image := "img", service := some "svc-a", network := "net", ports := "1:1" }

/-- An accessory whose configured service name is `svc-b`. -/
def accSvcB : AccessoryConfig :=
  { image := "img", service := some "svc-b", network := "net", ports := "2:2" }

/-- A configuration with the two accessories `svc-a` and `svc-b`. -/
def cfgTwo : AppConfig := { accessories := [("a", accSvcA), ("b", accSvcB)] }

/-- A manager loaded with `cfgTwo`. -/
def mgrTwo : Mgr := { config := cfgTwo }

/-- A runtime holding only a running `svc-b` container. -/
def worldTwo : World :=
  { containers := [{ name := "svc-b", id := "idb", status := "running", image := "img" }] }

/-- A dependency-free accessory with no configured service name. -/
def accPlain : AccessoryConfig := { image := "img", network := "net", ports := "1:1" }

/-- A dependency-free accessory on different ports. -/
def accPlain2 : AccessoryConfig := { image := "img", network := "net", ports := "2:2" }

/-- An accessory depending on the named accessory. -/
def accDep (d : String) : AccessoryConfig :=
  { image := "img", network := "net", ports := "3:3", depends_on := [d] }

/-- An accessory depending on both `db` and `cache`. -/
def accDep2 : AccessoryConfig :=
  { image := "img", network := "net", ports := "4:4", depends_on := ["db", "cache"] }

/-- The spec scenario: db and cache dependency-free, app depending on both. -/
def dbCacheApp : List (String × AccessoryConfig) :=
  [("db", accPlain), ("cache", accPlain2), ("app", accDep2)]

/-- A two-cycle between `qq1` and `qq2`. -/
def cycOne : List (String × AccessoryConfig) := [("qq1", accDep "qq2"), ("qq2", accDep "qq1")]

/-- A two-cycle between `rr1` and `rr2`. -/
def cycTwo : List (String × AccessoryConfig) := [("rr1", accDep "rr2"), ("rr2", accDep "rr1")]

/-- A manager whose accessory `a` is followed by a second accessory (of the
given name) that depends on `a`. -/
def mgrFailA (second : String) : Mgr :=
  { config := { accessories := [("a", accPlain), (second, accDep "a")] } }

/-- A runtime where creating the container `asantiya-a` fails with
explanation `boom` (the image is already present, the network is not). -/
def worldFailA : World := { images := ["img"], runErrors := [("asantiya-a", "boom")] }

/-- A runtime holding only a stopped (exited) `svc-b` container. -/
def worldStopped : World :=
  { containers := [{ name := "svc-b", id := "idb", status := "exited", image := "img" }] }


/-- A runtime with no networks where creating `net1` races: the daemon
answers the creation call with an "already exists" `APIError`. -/
def worldNetErr : World :=
  { netCreateErrors := [("net1", "network with name net1 already exists")] }

/-- The container the first `create_accessory` call of the C3 witness
creates. -/
def cC3 : Container := { name := "svc-a", id := "cid0", status := "running", image := "img" }

/-- The runtime state after that first call. -/
def w1C3 : World :=
  { containers := [cC3], images := ["img"], networks := ["net"], nextId := 1, createCount := 1 }

/-! ## Lemmas about the dependency resolver -/

theorem sumDeps_nil : sumDeps [] = 0 := rfl

theorem sumDeps_cons (p : String × List String) (g : List (String × List String)) :
    sumDeps (p :: g) = p.2.length + sumDeps g := by
  simp [sumDeps]

theorem take_append_left {α : Type} {l₁ l₂ : List α} {i : Nat} (h : i ≤ l₁.length) :
    (l₁ ++ l₂).take i = l₁.take i := by
  induction l₁ generalizing i with
  | nil => rw [Nat.le_zero.mp h]; simp
  | cons a l ih =>
      cases i with
      | zero => simp
      | succ i =>
          simp only [List.cons_append, List.take_succ_cons, List.length_cons] at h ⊢
          exact congrArg (List.cons a) (ih (Nat.le_of_succ_le_succ h))

theorem depsOf_eq_of_mem {orig : List (String × List String)}
    (hk : (orig.map Prod.fst).Nodup) {n : String} {ds : List String}
    (h : (n, ds) ∈ orig) : depsOf orig n = ds := by
  induction orig with
  | nil => cases h
  | cons p rest ih =>
      simp only [List.map_cons, List.nodup_cons] at hk
      rcases List.mem_cons.mp h with h | h
      · subst h
        simp [depsOf]
      · by_cases hpn : p.1 = n
        · exact absurd (hpn ▸ List.mem_map_of_mem Prod.fst h) hk.1
        · simpa [depsOf, hpn] using ih hk.2 h

theorem mem_of_mem_depsOf {orig : List (String × List String)} {n d : String}
    (h : d ∈ depsOf orig n) : n ∈ orig.map Prod.fst := by
  unfold depsOf at h
  cases hfind : orig.find? (fun p => p.1 = n) with
  | none => rw [hfind] at h; simp at h
  | some p =>
      have hp := List.find?_some hfind
      have hmem := List.mem_of_find?_eq_some hfind
      simp only [decide_eq_true_eq] at hp
      exact hp ▸ List.mem_map_of_mem Prod.fst hmem

theorem mem_depsOf_self {orig : List (String × List String)} {n : String}
    (h : n ∈ orig.map Prod.fst) : (n, depsOf orig n) ∈ orig := by
  induction orig with
  | nil => cases h
  | cons p rest ih =>
      by_cases hpn : p.1 = n
      · have : p = (n, p.2) := by rw [← hpn]
        rw [this]
        simp [depsOf]
      · simp only [List.map_cons, List.mem_cons] at h
        rcases h with h | h
        · exact absurd h.symm hpn
        · simpa [depsOf, hpn] using Or.inr (ih h)

theorem kahnRemove_fst (node : String) (graph : List (String × List String)) :
    (kahnRemove node graph).1 =
      graph.map (fun p => (p.1, p.2.filter (fun d => d ≠ node))) := by
  unfold kahnRemove
  refine List.map_congr_left (fun p _ => ?_)
  by_cases hmem : node ∈ p.2
  · rw [if_pos hmem]
  · have hself : p.2.filter (fun d => d ≠ node) = p.2 :=
      List.filter_eq_self.mpr (fun a ha => by
        simp only [decide_eq_true_eq]
        exact fun hc => hmem (hc ▸ ha))
    rw [if_neg hmem, hself]

theorem mem_kahnRemove_snd {node : String} {graph : List (String × List String)} {n : String} :
    n ∈ (kahnRemove node graph).2 ↔
      ∃ ds, (n, ds) ∈ graph ∧ node ∈ ds ∧ ds.filter (fun d => d ≠ node) = [] := by
  unfold kahnRemove
  simp only [List.mem_map, List.mem_filter, decide_eq_true_eq]
  constructor
  · rintro ⟨p, ⟨hp, hnode, hemp⟩, rfl⟩
    exact ⟨p.2, hp, hnode, hemp⟩
  · rintro ⟨ds, hp, hnode, hemp⟩
    exact ⟨(n, ds), ⟨hp, hnode, hemp⟩, rfl⟩

theorem kahnRemove_measure (node : String) (graph : List (String × List String)) :
    sumDeps (kahnRemove node graph).1 + (kahnRemove node graph).2.length ≤ sumDeps graph := by
  induction graph with
  | nil => simp [kahnRemove, sumDeps]
  | cons p rest ih =>
      simp only [kahnRemove, List.map_cons, List.filter_cons] at ih ⊢
      rw [sumDeps_cons]
      by_cases hmem : node ∈ p.2
      · by_cases hemp : p.2.filter (fun d => d ≠ node) = []
        · have hpos : 0 < p.2.length := List.length_pos.mpr (List.ne_nil_of_mem hmem)
          rw [if_pos hmem,
            if_pos (by simp only [decide_eq_true_eq]; exact ⟨hmem, hemp⟩)]
          simp only [sumDeps_cons, hemp, List.length_nil, List.map_cons, List.length_cons]
          omega
        · have hle := List.length_filter_le (fun d => decide (d ≠ node)) p.2
          rw [if_pos hmem,
            if_neg (by simp only [decide_eq_true_eq]; exact fun h => hemp h.2)]
          simp only [sumDeps_cons]
          omega
      · rw [if_neg hmem,
          if_neg (by simp only [decide_eq_true_eq]; exact fun h => hmem h.1)]
        simp only [sumDeps_cons]
        omega

theorem mem_graph_iff {orig : List (String × List String)}
    (hk : (orig.map Prod.fst).Nodup) (f : String → List String → List String)
    {n : String} {ds : List String} :
    (n, ds) ∈ orig.map (fun p => (p.1, f p.1 p.2)) ↔
      n ∈ orig.map Prod.fst ∧ ds = f n (depsOf orig n) := by
  constructor
  · intro h
    rcases List.mem_map.mp h with ⟨q, hq, heq⟩
    injection heq with h1 h2
    have hq' : (n, q.2) ∈ orig := by rw [← h1]; exact hq
    have hdeps : depsOf orig n = q.2 := depsOf_eq_of_mem hk hq'
    exact ⟨h1 ▸ List.mem_map_of_mem Prod.fst hq, by rw [hdeps, ← h1, h2]⟩
  · rintro ⟨hmem, rfl⟩
    exact List.mem_map.mpr ⟨(n, depsOf orig n), mem_depsOf_self hmem, rfl⟩

theorem filter_not_mem_append {l ordered : List String} {node : String} :
    (l.filter (fun d => d ∉ ordered)).filter (fun d => d ≠ node) =
      l.filter (fun d => d ∉ ordered ++ [node]) := by
  rw [List.filter_filter]
  refine List.filter_congr (fun a _ => ?_)
  rw [← Bool.decide_and]
  refine decide_eq_decide.mpr ?_
  simp [List.mem_append, not_or, and_comm]

/-- The loop invariant of Kahn's algorithm as implemented: `graph` is the
original graph with every already-ordered node removed from every dependency
set; a key's remaining set is empty exactly when it has been ordered or is on
the worklist; the ordered output and worklist are disjoint, duplicate-free
key names; and every ordered name's dependencies precede it. -/
structure KahnInv (orig graph : List (String × List String))
    (stack ordered : List String) : Prop where
  graph_eq : graph = orig.map (fun p => (p.1, p.2.filter (fun d => d ∉ ordered)))
  ready_iff : ∀ n ∈ orig.map Prod.fst,
      ((depsOf orig n).filter (fun d => d ∉ ordered) = [] ↔ n ∈ ordered ∨ n ∈ stack)
  nodup : (ordered ++ stack).Nodup
  sub : ∀ x ∈ ordered ++ stack, x ∈ orig.map Prod.fst
  respects : ∀ i, i < ordered.length → ∀ d ∈ depsOf orig (ordered.getD i ""), d ∈ ordered.take i

theorem kahnInv_step {orig graph : List (String × List String)} {node : String}
    {rest ordered : List String} (hk : (orig.map Prod.fst).Nodup)
    (inv : KahnInv orig graph (node :: rest) ordered) :
    KahnInv orig (kahnRemove node graph).1
      ((kahnRemove node graph).2.reverse ++ rest) (ordered ++ [node]) := by
  have hkeys_node : node ∈ orig.map Prod.fst := inv.sub node (by simp)
  have hcur_node : (depsOf orig node).filter (fun d => d ∉ ordered) = [] :=
    (inv.ready_iff node hkeys_node).mpr (Or.inr (by simp))
  have hnewly : ∀ n, n ∈ (kahnRemove node graph).2 ↔
      n ∈ orig.map Prod.fst ∧ node ∈ (depsOf orig n).filter (fun d => d ∉ ordered) ∧
        ((depsOf orig n).filter (fun d => d ∉ ordered)).filter (fun d => d ≠ node) = [] := by
    intro n
    rw [mem_kahnRemove_snd]
    constructor
    · rintro ⟨ds, hds, hnode, hemp⟩
      rw [inv.graph_eq] at hds
      rcases (mem_graph_iff hk
        (fun _ ds => ds.filter (fun d => decide (d ∉ ordered)))).mp hds with ⟨hmemk, rfl⟩
      exact ⟨hmemk, hnode, hemp⟩
    · rintro ⟨hmemk, hnode, hemp⟩
      refine ⟨(depsOf orig n).filter (fun d => d ∉ ordered), ?_, hnode, hemp⟩
      rw [inv.graph_eq]
      exact (mem_graph_iff hk
        (fun _ ds => ds.filter (fun d => decide (d ∉ ordered)))).mpr ⟨hmemk, rfl⟩
  have hfresh : ∀ n ∈ (kahnRemove node graph).2, n ∉ ordered ∧ n ≠ node ∧ n ∉ rest := by
    intro n hn
    rcases (hnewly n).mp hn with ⟨hmemk, hnode, _⟩
    have hne : (depsOf orig n).filter (fun d => d ∉ ordered) ≠ [] := List.ne_nil_of_mem hnode
    have hnot : ¬ (n ∈ ordered ∨ n ∈ node :: rest) :=
      fun hc => hne ((inv.ready_iff n hmemk).mpr hc)
    push_neg at hnot
    refine ⟨hnot.1, ?_, ?_⟩
    · intro hc; exact hnot.2 (hc ▸ List.mem_cons_self node rest)
    · intro hc; exact hnot.2 (List.mem_cons_of_mem _ hc)
  refine ⟨?_, ?_, ?_, ?_, ?_⟩
  · -- graph_eq
    rw [kahnRemove_fst, inv.graph_eq, List.map_map]
    refine List.map_congr_left (fun p _ => ?_)
    show (p.1, (p.2.filter (fun d => d ∉ ordered)).filter (fun d => d ≠ node)) =
      (p.1, p.2.filter (fun d => d ∉ ordered ++ [node]))
    rw [filter_not_mem_append]
  · -- ready_iff
    intro n hmemk
    rw [← filter_not_mem_append]
    constructor
    · intro hemp
      by_cases hc : (depsOf orig n).filter (fun d => d ∉ ordered) = []
      · rcases (inv.ready_iff n hmemk).mp hc with h | h
        · exact Or.inl (List.mem_append_left _ h)
        · rcases List.mem_cons.mp h with rfl | h
          · exact Or.inl (List.mem_append_right _ (by simp))
          · exact Or.inr (List.mem_append_right _ h)
      · have hnode : node ∈ (depsOf orig n).filter (fun d => d ∉ ordered) := by
          rcases List.exists_mem_of_ne_nil _ hc with ⟨d, hd⟩
          have hdn : d = node := by
            have := List.filter_eq_nil_iff.mp hemp d hd
            simpa using this
          exact hdn ▸ hd
        exact Or.inr (List.mem_append_left _
          (List.mem_reverse.mpr ((hnewly n).mpr ⟨hmemk, hnode, hemp⟩)))
    · intro h
      rcases h with h | h
      · rcases List.mem_append.mp h with h | h
        · have hc : (depsOf orig n).filter (fun d => d ∉ ordered) = [] :=
            (inv.ready_iff n hmemk).mpr (Or.inl h)
          rw [hc]; rfl
        · have hn : n = node := by simpa using h
          rw [hn, hcur_node]; rfl
      · rcases List.mem_append.mp h with h | h
        · exact ((hnewly n).mp (List.mem_reverse.mp h)).2.2
        · have hc : (depsOf orig n).filter (fun d => d ∉ ordered) = [] :=
            (inv.ready_iff n hmemk).mpr (Or.inr (List.mem_cons_of_mem _ h))
          rw [hc]; rfl
  · -- nodup
    have hgkeys : graph.map Prod.fst = orig.map Prod.fst := by
      rw [inv.graph_eq, List.map_map]; rfl
    have hnnd : (kahnRemove node graph).2.Nodup := by
      have hsub : List.Sublist (kahnRemove node graph).2 (graph.map Prod.fst) := by
        unfold kahnRemove
        exact (List.filter_sublist graph).map Prod.fst
      exact (hgkeys ▸ hsub).nodup hk
    have hdisj : (ordered ++ node :: rest).Disjoint (kahnRemove node graph).2 := by
      intro a ha han
      rcases hfresh a han with ⟨h1, h2, h3⟩
      rcases List.mem_append.mp ha with h | h
      · exact h1 h
      · rcases List.mem_cons.mp h with rfl | h
        · exact h2 rfl
        · exact h3 h
    have hnd : ((ordered ++ node :: rest) ++ (kahnRemove node graph).2).Nodup :=
      inv.nodup.append hnnd hdisj
    have hstep1 : List.Perm ((kahnRemove node graph).2.reverse ++ rest)
        (rest ++ (kahnRemove node graph).2) :=
      ((List.reverse_perm (kahnRemove node graph).2).append_right rest).trans
        List.perm_append_comm
    have hperm : List.Perm
        ((ordered ++ [node]) ++ ((kahnRemove node graph).2.reverse ++ rest))
        ((ordered ++ node :: rest) ++ (kahnRemove node graph).2) := by
      have h2 := List.Perm.append_left (ordered ++ [node]) hstep1
      have h3 : (ordered ++ [node]) ++ (rest ++ (kahnRemove node graph).2) =
          (ordered ++ node :: rest) ++ (kahnRemove node graph).2 := by
        simp [List.append_assoc]
      exact h3 ▸ h2
    exact hperm.symm.nodup hnd
  · -- sub
    intro x hx
    rcases List.mem_append.mp hx with h | h
    · rcases List.mem_append.mp h with h | h
      · exact inv.sub x (List.mem_append_left _ h)
      · have hx : x = node := by simpa using h
        exact hx ▸ hkeys_node
    · rcases List.mem_append.mp h with h | h
      · exact ((hnewly x).mp (List.mem_reverse.mp h)).1
      · exact inv.sub x (List.mem_append_right _ (List.mem_cons_of_mem _ h))
  · -- respects
    intro i hi d hd
    rcases Nat.lt_or_ge i ordered.length with hlt | hge
    · have hgetD : (ordered ++ [node]).getD i "" = ordered.getD i "" :=
        List.getD_append _ _ _ _ hlt
      have htake : (ordered ++ [node]).take i = ordered.take i :=
        take_append_left (Nat.le_of_lt hlt)
      rw [htake]
      exact inv.respects i hlt d (by rwa [hgetD] at hd)
    · have hieq : i = ordered.length := by
        simp only [List.length_append, List.length_singleton] at hi
        omega
      subst hieq
      have hgetD : (ordered ++ [node]).getD ordered.length "" = node := by
        rw [List.getD_append_right _ _ _ _ (Nat.le_refl _)]
        simp
      rw [hgetD] at hd
      have htake : (ordered ++ [node]).take ordered.length = ordered :=
        List.take_left _ _
      rw [htake]
      have := List.filter_eq_nil_iff.mp hcur_node d hd
      simpa using this

theorem kahnInv_final {orig graph : List (String × List String)} {ordered : List String}
    (inv : KahnInv orig graph [] ordered) :
    KahnInv orig (orig.map (fun p => (p.1, p.2.filter (fun d => d ∉ ordered)))) [] ordered :=
  ⟨rfl, inv.ready_iff, inv.nodup, inv.sub, inv.respects⟩

theorem kahnLoop_inv {orig : List (String × List String)}
    (hk : (orig.map Prod.fst).Nodup) :
    ∀ fuel graph stack ordered, sumDeps graph + stack.length ≤ fuel →
      KahnInv orig graph stack ordered →
      KahnInv orig
        (orig.map (fun p => (p.1, p.2.filter (fun d => d ∉ kahnLoop fuel graph stack ordered))))
        [] (kahnLoop fuel graph stack ordered) := by
  intro fuel
  induction fuel with
  | zero =>
      intro graph stack ordered hf inv
      cases stack with
      | nil => exact kahnInv_final inv
      | cons node rest => simp [List.length_cons] at hf
  | succ fuel ih =>
      intro graph stack ordered hf inv
      cases stack with
      | nil => exact kahnInv_final inv
      | cons node rest =>
          rw [kahnLoop]
          refine ih _ _ _ ?_ (kahnInv_step hk inv)
          have hm := kahnRemove_measure node graph
          simp only [List.length_append, List.length_reverse, List.length_cons] at hf ⊢
          omega

theorem topo_split {orig : List (String × List String)} {l : List String}
    (hresp : ∀ i, i < l.length → ∀ d ∈ depsOf orig (l.getD i ""), d ∈ l.take i)
    {pre suf : List String} {n : String} (h : l = pre ++ n :: suf) :
    ∀ d ∈ depsOf orig n, d ∈ pre := by
  subst h
  have hi : pre.length < (pre ++ n :: suf).length := by simp
  have hget : (pre ++ n :: suf).getD pre.length "" = n := by
    rw [List.getD_append_right _ _ _ _ (Nat.le_refl _)]
    simp
  have htake : (pre ++ n :: suf).take pre.length = pre := List.take_left _ _
  intro d hd
  have := hresp pre.length hi d (by rwa [hget])
  rwa [htake] at this

theorem exists_first_split {t out : List String} (h : ∃ x ∈ t, x ∉ out) :
    ∃ pre n suf, t = pre ++ n :: suf ∧ n ∉ out ∧ ∀ x ∈ pre, x ∈ out := by
  induction t with
  | nil => rcases h with ⟨x, hx, _⟩; cases hx
  | cons a t ih =>
      by_cases ha : a ∈ out
      · have h' : ∃ x ∈ t, x ∉ out := by
          rcases h with ⟨x, hx, hxo⟩
          rcases List.mem_cons.mp hx with rfl | hx
          · exact absurd ha hxo
          · exact ⟨x, hx, hxo⟩
        rcases ih h' with ⟨pre, n, suf, ht, hn, hpre⟩
        refine ⟨a :: pre, n, suf, by rw [ht]; rfl, hn, ?_⟩
        intro x hx
        rcases List.mem_cons.mp hx with rfl | hx
        · exact ha
        · exact hpre x hx
      · exact ⟨[], a, t, rfl, ha, by simp⟩

theorem sort_graph_inv {configs : List (String × AccessoryConfig)}
    (hk : ((graphOf configs).map Prod.fst).Nodup) :
    ∃ out, kahnLoop (sumDeps (graphOf configs) + (initReady (graphOf configs)).length)
        (graphOf configs) (initReady (graphOf configs)).reverse [] = out ∧
      KahnInv (graphOf configs)
        ((graphOf configs).map (fun p => (p.1, p.2.filter (fun d => d ∉ out)))) [] out := by
  set orig := graphOf configs with horig
  have hinit : KahnInv orig orig (initReady orig).reverse [] := by
    have hready : ∀ n ∈ orig.map Prod.fst,
        (depsOf orig n = [] ↔ n ∈ initReady orig) := by
      intro n hn
      constructor
      · intro hemp
        have hmem := mem_depsOf_self hn
        unfold initReady
        refine List.mem_map.mpr ⟨(n, depsOf orig n), ?_, rfl⟩
        refine List.mem_filter.mpr ⟨hmem, ?_⟩
        simp [hemp]
      · intro hmem
        unfold initReady at hmem
        rcases List.mem_map.mp hmem with ⟨p, hp, rfl⟩
        have hpmem := List.mem_filter.mp hp
        have : depsOf orig p.1 = p.2 := depsOf_eq_of_mem hk (by
          have : p = (p.1, p.2) := rfl
          rw [← this]; exact hpmem.1)
        rw [this]
        simpa using hpmem.2
    have hinitnd : (initReady orig).Nodup := by
      have hsub : List.Sublist (initReady orig) (orig.map Prod.fst) := by
        unfold initReady
        exact (List.filter_sublist orig).map Prod.fst
      exact hsub.nodup hk
    have hinitsub : ∀ x ∈ initReady orig, x ∈ orig.map Prod.fst := by
      intro x hx
      unfold initReady at hx
      rcases List.mem_map.mp hx with ⟨p, hp, rfl⟩
      exact List.mem_map_of_mem Prod.fst (List.mem_filter.mp hp).1
    refine ⟨?_, ?_, ?_, ?_, ?_⟩
    · refine Eq.symm ?_
      have hmc : orig.map (fun p => (p.1, p.2.filter (fun d => d ∉ ([] : List String)))) =
          orig.map id := List.map_congr_left (fun p _ => by simp)
      rw [hmc, List.map_id]
    · intro n hn
      have h1 : (depsOf orig n).filter (fun d => d ∉ ([] : List String)) = depsOf orig n :=
        List.filter_eq_self.mpr (fun a _ => by simp)
      rw [h1]
      simp only [List.not_mem_nil, false_or, List.mem_reverse]
      exact hready n hn
    · simpa using List.nodup_reverse.mpr hinitnd
    · intro x hx
      simp only [List.nil_append, List.mem_reverse] at hx
      exact hinitsub x hx
    · intro i hi; simp at hi
  have hfuel : sumDeps orig + (initReady orig).reverse.length ≤
      sumDeps orig + (initReady orig).length := by
    simp
  exact ⟨_, rfl, kahnLoop_inv hk _ _ _ _ hfuel hinit⟩

theorem sort_ok_topo {configs : List (String × AccessoryConfig)} {l : List String}
    (hk : ((graphOf configs).map Prod.fst).Nodup)
    (h : sort_by_dependencies configs = Except.ok l) : IsTopoOrder (graphOf configs) l := by
  rcases sort_graph_inv hk with ⟨out, hout, inv⟩
  simp only [sort_by_dependencies] at h
  rw [hout] at h
  by_cases hlen : out.length ≠ configs.length
  · rw [if_pos hlen] at h; cases h
  · rw [if_neg hlen] at h
    injection h with h
    subst h
    push_neg at hlen
    have hkeyslen : ((graphOf configs).map Prod.fst).length = configs.length := by
      simp [graphOf]
    have hnd : out.Nodup := by simpa using inv.nodup
    have hsub : out ⊆ (graphOf configs).map Prod.fst := by
      intro x hx
      exact inv.sub x (by simpa using hx)
    have hperm : List.Perm out ((graphOf configs).map Prod.fst) :=
      (List.subperm_of_subset hnd hsub).perm_of_length_le (by omega)
    exact ⟨hperm, inv.respects⟩

theorem sort_complete {configs : List (String × AccessoryConfig)}
    (hk : ((graphOf configs).map Prod.fst).Nodup)
    (hac : Acyclic (graphOf configs)) :
    ∃ l, sort_by_dependencies configs = Except.ok l := by
  rcases sort_graph_inv hk with ⟨out, hout, inv⟩
  rcases hac with ⟨t, htperm, htresp⟩
  have hkeyslen : ((graphOf configs).map Prod.fst).length = configs.length := by
    simp [graphOf]
  have hnd : out.Nodup := by simpa using inv.nodup
  have hsub : out ⊆ (graphOf configs).map Prod.fst := by
    intro x hx
    exact inv.sub x (by simpa using hx)
  have hlen : out.length = configs.length := by
    by_contra hne
    have hle : out.length ≤ ((graphOf configs).map Prod.fst).length :=
      (List.subperm_of_subset hnd hsub).length_le
    have hmiss : ∃ k ∈ (graphOf configs).map Prod.fst, k ∉ out := by
      by_contra hall
      push_neg at hall
      have : List.Subperm ((graphOf configs).map Prod.fst) out :=
        List.subperm_of_subset hk hall
      have := this.length_le
      omega
    rcases hmiss with ⟨k, hkmem, hknot⟩
    have hkt : ∃ x ∈ t, x ∉ out := ⟨k, htperm.symm.subset hkmem, hknot⟩
    rcases exists_first_split hkt with ⟨pre, n, suf, ht, hn, hpre⟩
    have hdeps : ∀ d ∈ depsOf (graphOf configs) n, d ∈ pre := topo_split htresp ht
    have hnk : n ∈ (graphOf configs).map Prod.fst := by
      have : n ∈ t := by rw [ht]; exact List.mem_append_right _ (List.mem_cons_self _ _)
      exact htperm.subset this
    have hcur : (depsOf (graphOf configs) n).filter (fun d => d ∉ out) = [] := by
      refine List.filter_eq_nil_iff.mpr (fun d hd => ?_)
      simp only [decide_eq_true_eq, not_not]
      exact hpre d (hdeps d hd)
    have := (inv.ready_iff n hnk).mp hcur
    simp only [List.not_mem_nil, or_false] at this
    exact hn this
  refine ⟨out, ?_⟩
  simp only [sort_by_dependencies]
  rw [hout, if_neg (by omega)]

theorem graphOf_keys (configs : List (String × AccessoryConfig)) :
    (graphOf configs).map Prod.fst = configs.map Prod.fst := by
  simp [graphOf, List.map_map]

theorem topo_edge_lt {orig : List (String × List String)} {l : List String}
    (hk : (orig.map Prod.fst).Nodup) (ht : IsTopoOrder orig l) {a b : String}
    (hb : b ∈ depsOf orig a) : l.indexOf b < l.indexOf a := by
  have hak : a ∈ orig.map Prod.fst := mem_of_mem_depsOf hb
  have hal : a ∈ l := ht.1.mem_iff.mpr hak
  rcases List.append_of_mem hal with ⟨pre, suf, rfl⟩
  have hnd : (pre ++ a :: suf).Nodup := ht.1.symm.nodup hk
  have hanp : a ∉ pre := by
    intro hc
    exact List.disjoint_of_nodup_append hnd hc (List.mem_cons_self _ _)
  have hbpre : b ∈ pre := topo_split ht.2 rfl b hb
  have h1 : (pre ++ a :: suf).indexOf a = pre.length := by
    rw [List.indexOf_append_of_not_mem hanp, List.indexOf_cons_self]
    omega
  have h2 : (pre ++ a :: suf).indexOf b < pre.length := by
    rw [List.indexOf_append_of_mem hbpre]
    exact List.indexOf_lt_length.mpr hbpre
  omega

theorem topo_no_cycle {orig : List (String × List String)} {l : List String}
    (hk : (orig.map Prod.fst).Nodup) (ht : IsTopoOrder orig l) : ¬ HasCycle orig := by
  rintro ⟨n, hcyc⟩
  have hdesc : ∀ {x y : String},
      Relation.TransGen (fun a b => b ∈ depsOf orig a) x y → l.indexOf y < l.indexOf x := by
    intro x y h
    induction h with
    | single hxy => exact topo_edge_lt hk ht hxy
    | tail _ hyz ih => exact Nat.lt_trans (topo_edge_lt hk ht hyz) ih
  exact absurd (hdesc hcyc) (Nat.lt_irrefl _)

theorem sort_error_eq {configs : List (String × AccessoryConfig)} {e : String}
    (h : sort_by_dependencies configs = Except.error e) :
    e = "Circular dependency detected" := by
  simp only [sort_by_dependencies] at h
  by_cases hc : (kahnLoop (sumDeps (graphOf configs) + (initReady (graphOf configs)).length)
      (graphOf configs) (initReady (graphOf configs)).reverse []).length ≠ configs.length
  · rw [if_pos hc] at h
    injection h with h
    exact h.symm
  · rw [if_neg hc] at h
    cases h


/-! ## Claims C5 and C6: the dependency resolver -/

/-- C5: for every acyclic dependency graph of accessory specs (acyclic in the
standard sense of admitting a topological order; the configuration keys are
unique as in a Python dict), `sort_by_dependencies` returns an ordering that
is a permutation of all names in which every name appears strictly after
every name in its `depends_on` set. -/
theorem claim_C5 (configs : List (String × AccessoryConfig))
    (hk : (configs.map Prod.fst).Nodup)
    (hac : Acyclic (graphOf configs)) :
    ∃ l, sort_by_dependencies configs = Except.ok l ∧
      List.Perm l (configs.map Prod.fst) ∧
      ∀ i, i < l.length → ∀ p ∈ configs, p.1 = l.getD i "" →
        ∀ d ∈ p.2.depends_on, d ∈ l.take i := by
  have hk2 : ((graphOf configs).map Prod.fst).Nodup := by rw [graphOf_keys]; exact hk
  rcases sort_complete hk2 hac with ⟨l, hl⟩
  have htopo := sort_ok_topo hk2 hl
  refine ⟨l, hl, ?_, ?_⟩
  · rw [← graphOf_keys]; exact htopo.1
  · intro i hi p hp hkey d hd
    have hmem : (p.1, p.2.depends_on.dedup) ∈ graphOf configs :=
      List.mem_map.mpr ⟨p, hp, rfl⟩
    have hdeps : depsOf (graphOf configs) p.1 = p.2.depends_on.dedup :=
      depsOf_eq_of_mem hk2 hmem
    have hd2 : d ∈ depsOf (graphOf configs) (l.getD i "") := by
      rw [← hkey, hdeps]
      exact List.mem_dedup.mpr hd
    exact htopo.2 i hi d hd2

/-- C5 witness: the concrete `{db, cache, app}` scenario of the spec is
acyclic, and the claim applies to it. -/
theorem claim_C5_witness :
    ((dbCacheApp.map Prod.fst).Nodup ∧ Acyclic (graphOf dbCacheApp)) ∧
      (∃ l, sort_by_dependencies dbCacheApp = Except.ok l ∧
        List.Perm l (dbCacheApp.map Prod.fst) ∧
        ∀ i, i < l.length → ∀ p ∈ dbCacheApp, p.1 = l.getD i "" →
          ∀ d ∈ p.2.depends_on, d ∈ l.take i) :=
  ⟨⟨by decide, ⟨["db", "cache", "app"], by unfold IsTopoOrder; decide⟩⟩,
    claim_C5 dbCacheApp (by decide) ⟨["db", "cache", "app"], by unfold IsTopoOrder; decide⟩⟩

/-- C6 (as stated) is false: the cycle error is the constant string
`"Circular dependency detected"`; two cyclic graphs over disjoint residual
sets (`{qq1, qq2}` and `{rr1, rr2}`) produce the identical message, which
contains neither residual name — so the error does not name the unresolved
residual set. -/
theorem claim_C6_counterexample :
    sort_by_dependencies cycOne = Except.error "Circular dependency detected" ∧
      sort_by_dependencies cycTwo = Except.error "Circular dependency detected" ∧
      strContainsSub "Circular dependency detected" "qq1" = false ∧
      strContainsSub "Circular dependency detected" "rr1" = false :=
  ⟨rfl, rfl, by decide, by decide⟩

/-- C6 amended: for every dependency graph containing a cycle (a name that
reaches itself through `depends_on` edges), `sort_by_dependencies` fails with
the `ValueError` message `"Circular dependency detected"` — it returns no
partial ordering — but the error does not name the residual set. -/
theorem claim_C6 (configs : List (String × AccessoryConfig))
    (hk : (configs.map Prod.fst).Nodup)
    (hcyc : HasCycle (graphOf configs)) :
    sort_by_dependencies configs = Except.error "Circular dependency detected" := by
  have hk2 : ((graphOf configs).map Prod.fst).Nodup := by rw [graphOf_keys]; exact hk
  cases hres : sort_by_dependencies configs with
  | ok l => exact absurd hcyc (topo_no_cycle hk2 (sort_ok_topo hk2 hres))
  | error e => rw [sort_error_eq hres]

/-- C6 witness: the concrete two-cycle `qq1 ↔ qq2` has a cycle and the
amended claim applies to it. -/
theorem claim_C6_witness :
    ((cycOne.map Prod.fst).Nodup ∧ HasCycle (graphOf cycOne)) ∧
      sort_by_dependencies cycOne = Except.error "Circular dependency detected" := by
  have h1 : "qq2" ∈ depsOf (graphOf cycOne) "qq1" := by decide
  have h2 : "qq1" ∈ depsOf (graphOf cycOne) "qq2" := by decide
  have hcyc : HasCycle (graphOf cycOne) :=
    ⟨"qq1", Relation.TransGen.head h1 (Relation.TransGen.single h2)⟩
  exact ⟨⟨by decide, hcyc⟩, claim_C6 cycOne (by decide) hcyc⟩


/-! ## Claim C7: ensure_network and the creation race -/

/-- C7 (as stated) is false: with `net1` absent from the listing and the
runtime answering the creation call with a "network already exists"
`APIError`, `ensure_network` does not return success — it raises
`RuntimeError("Network creation failed: ...")`. -/
theorem claim_C7_counterexample :
    ensure_network "net1" worldNetErr =
      (worldNetErr, Except.error (PyError.runtimeError
        "Network creation failed: network with name net1 already exists")) := rfl

/-- C7 amended: when `ensure_network` enters its creation call (the network
was observed absent) and the runtime responds with any `APIError` — in
particular "network already exists" — the function raises
`RuntimeError("Network creation failed: <explanation>")` instead of treating
the achieved end state as success; only a network found by the pre-check
listing is treated as success. -/
theorem claim_C7 (network_name expl : String) (w : World)
    (habs : network_name ∉ w.networks)
    (herr : w.netCreateErrors.lookup network_name = some expl) :
    ensure_network network_name w =
      (w, Except.error (PyError.runtimeError ("Network creation failed: " ++ expl))) := by
  unfold ensure_network
  rw [if_neg habs, herr]

/-- C7 witness: the amended claim applied to the concrete race world. -/
theorem claim_C7_witness :
    (("net1" ∉ worldNetErr.networks) ∧
        worldNetErr.netCreateErrors.lookup "net1" =
          some "network with name net1 already exists") ∧
      ensure_network "net1" worldNetErr =
        (worldNetErr, Except.error (PyError.runtimeError
          "Network creation failed: network with name net1 already exists")) :=
  ⟨⟨by decide, rfl⟩, claim_C7 "net1" "network with name net1 already exists" worldNetErr
    (by decide) rfl⟩

/-! ## Claim C2: the stop scenario -/

/-- C2 (as stated) is false: `stop_accessories` defaults to
`raise_errors=False` (and the CLI calls it that way), under which
`stop_accessory` swallows the not-found error and returns normally, so the
batch records `svc-a ↦ True` (success), not an `Error("not found")`. -/
theorem claim_C2_counterexample :
    (stop_accessories mgrTwo ["svc-a", "svc-b"] false false worldTwo).2.2 =
      [("svc-a", Sum.inl true), ("svc-b", Sum.inl true)] := rfl

/-- C2 amended: with `raise_errors` set, `stop(["svc-a","svc-b"])` over a
runtime holding only a running `svc-b` maps `svc-a` to its own error result
(the method's outer handler re-wraps the not-found `ValueError` as
`RuntimeError("Unexpected error removing container svc-a: Container svc-a
not found")`) and `svc-b` to success; the failure of `svc-a` does not abort
the batch — `svc-b` is still stopped.  With `raise_errors` unset (the
default) both names report success. -/
theorem claim_C2 :
    (stop_accessories mgrTwo ["svc-a", "svc-b"] false true worldTwo).2.2 =
        [("svc-a", Sum.inr
            "Unexpected error removing container svc-a: Container svc-a not found"),
          ("svc-b", Sum.inl true)] ∧
      (stop_accessories mgrTwo ["svc-a", "svc-b"] false true worldTwo).2.1 =
        worldTwo.setStatus "svc-b" "exited" :=
  ⟨rfl, rfl⟩

/-! ## Claim C4: one result per requested name -/

theorem dictInsert_of_not_mem {α : Type} {k : String} {v : α} {l : List (String × α)}
    (h : k ∉ l.map Prod.fst) : dictInsert k v l = l ++ [(k, v)] := by
  induction l with
  | nil => rfl
  | cons p rest ih =>
      simp only [List.map_cons, List.mem_cons, not_or] at h
      rw [dictInsert, if_neg (fun hc => h.1 hc.symm), ih h.2]
      rfl

theorem stopAccessoriesLoop_keys (cfg : AppConfig) (force raise_errors : Bool) :
    ∀ (names : List String) (w : World) (acc : List (String × Sum Bool String)),
      names.Nodup → (∀ n ∈ names, n ∉ acc.map Prod.fst) →
      (stopAccessoriesLoop cfg force raise_errors names w acc).2.map Prod.fst =
        acc.map Prod.fst ++ names := by
  intro names
  induction names with
  | nil => intro w acc _ _; simp [stopAccessoriesLoop]
  | cons n rest ih =>
      intro w acc hnd hfresh
      have hn : n ∉ acc.map Prod.fst := hfresh n (List.mem_cons_self _ _)
      have hnd2 := (List.nodup_cons.mp hnd).2
      have hnmem := (List.nodup_cons.mp hnd).1
      have hfresh2 : ∀ v : Sum Bool String, ∀ x ∈ rest,
          x ∉ (dictInsert n v acc).map Prod.fst := by
        intro v x hx
        rw [dictInsert_of_not_mem hn]
        simp only [List.map_append, List.mem_append, List.map_cons, List.map_nil,
          List.mem_singleton, not_or]
        exact ⟨hfresh x (List.mem_cons_of_mem _ hx), fun hc => hnmem (hc ▸ hx)⟩
      have hkeys : ∀ v : Sum Bool String,
          (dictInsert n v acc).map Prod.fst = acc.map Prod.fst ++ [n] := by
        intro v
        rw [dictInsert_of_not_mem hn]
        simp
      rcases hsa : stop_accessory cfg n force raise_errors w with ⟨w2, r⟩
      cases r with
      | ok u =>
          rw [stopAccessoriesLoop, hsa]
          rw [ih w2 _ hnd2 (hfresh2 _), hkeys]
          simp
      | error e =>
          rw [stopAccessoriesLoop, hsa]
          rw [ih w2 _ hnd2 (hfresh2 _), hkeys]
          simp

theorem restartLoop_keys (timeout : Nat) (force_restart : Bool) :
    ∀ (names : List String) (w : World) (acc : List (String × Sum Bool String)),
      names.Nodup → (∀ n ∈ names, n ∉ acc.map Prod.fst) →
      ∃ w2 res, restartLoop timeout force_restart false names w acc = (w2, Except.ok res) ∧
        res.map Prod.fst = acc.map Prod.fst ++ names := by
  intro names
  induction names with
  | nil => intro w acc _ _; exact ⟨w, acc, rfl, by simp [restartLoop]⟩
  | cons n rest ih =>
      intro w acc hnd hfresh
      have hn : n ∉ acc.map Prod.fst := hfresh n (List.mem_cons_self _ _)
      have hnd2 := (List.nodup_cons.mp hnd).2
      have hnmem := (List.nodup_cons.mp hnd).1
      have hfresh2 : ∀ v : Sum Bool String, ∀ x ∈ rest,
          x ∉ (dictInsert n v acc).map Prod.fst := by
        intro v x hx
        rw [dictInsert_of_not_mem hn]
        simp only [List.map_append, List.mem_append, List.map_cons, List.map_nil,
          List.mem_singleton, not_or]
        exact ⟨hfresh x (List.mem_cons_of_mem _ hx), fun hc => hnmem (hc ▸ hx)⟩
      have hkeys : ∀ v : Sum Bool String,
          (dictInsert n v acc).map Prod.fst = acc.map Prod.fst ++ [n] := by
        intro v
        rw [dictInsert_of_not_mem hn]
        simp
      have hstep : ∀ (v : Sum Bool String) (w2 : World),
          (∃ w3 res, restartLoop timeout force_restart false rest w2
              (dictInsert n v acc) = (w3, Except.ok res) ∧
            res.map Prod.fst = acc.map Prod.fst ++ n :: rest) := by
        intro v w2
        rcases ih w2 (dictInsert n v acc) hnd2 (hfresh2 v) with ⟨w3, res, heq, hmap⟩
        refine ⟨w3, res, heq, ?_⟩
        rw [hmap, hkeys]
        simp
      by_cases hne : n = ""
      · rw [restartLoop, if_pos hne]
        exact hstep (Sum.inr ("Invalid container name: " ++ n)) w
      · rw [restartLoop, if_neg hne]
        cases hf : w.findContainer n with
        | none =>
            dsimp only []
            exact hstep (Sum.inr ("Container " ++ n ++ " not found")) w
        | some c =>
            dsimp only []
            by_cases hst : c.status ≠ "running" ∧ ¬ force_restart
            · rw [if_pos hst]
              exact hstep _ w
            · rw [if_neg hst]
              exact hstep _ (w.setStatus n "running")

/-- C4 (as stated) is false: the per-item results are a dict keyed by the
requested name, so a duplicated name is merged into a single entry — the
request `["svc-b", "svc-b"]` (N = 2) yields one result, for both `stop` and
`restart`. -/
theorem claim_C4_counterexample :
    (stop_accessories mgrTwo ["svc-b", "svc-b"] false false worldTwo).2.2.length = 1 ∧
      ∃ res, (restart_accessories mgrTwo ["svc-b", "svc-b"] 10 false false worldTwo).2.2 =
          Except.ok res ∧ res.length = 1 :=
  ⟨rfl, ⟨[("svc-b", Sum.inl true)], rfl, rfl⟩⟩

/-- C4 amended: for every list of N pairwise-distinct requested names,
`stop_accessories` (under any flags) and `restart_accessories` (with
`raise_errors` unset, its default) return exactly one result per requested
name, in request order — N results regardless of how many items fail.
Duplicate requested names are merged by the results dict, and
`restart_accessories` with `raise_errors` set aborts the batch on a missing
container. -/
theorem claim_C4 (m : Mgr) (names : List String) (force raise_errors : Bool)
    (timeout : Nat) (force_restart : Bool) (w : World) (hnd : names.Nodup) :
    (stop_accessories m names force raise_errors w).2.2.map Prod.fst = names ∧
      ∃ res, (restart_accessories m names timeout force_restart false w).2.2 =
          Except.ok res ∧ res.map Prod.fst = names := by
  constructor
  · have := stopAccessoriesLoop_keys m.config force raise_errors names w [] hnd (by simp)
    simpa [stop_accessories] using this
  · rcases restartLoop_keys timeout force_restart names w [] hnd (by simp)
      with ⟨w2, res, heq, hmap⟩
    refine ⟨res, ?_, by simpa using hmap⟩
    simp [restart_accessories, heq]

/-- C4 witness: the amended claim applied to the two distinct names of the
spec scenario over the runtime holding only `svc-b`. -/
theorem claim_C4_witness :
    (["svc-a", "svc-b"] : List String).Nodup ∧
      ((stop_accessories mgrTwo ["svc-a", "svc-b"] false false worldTwo).2.2.map Prod.fst =
          ["svc-a", "svc-b"] ∧
        ∃ res, (restart_accessories mgrTwo ["svc-a", "svc-b"] 10 false false worldTwo).2.2 =
            Except.ok res ∧ res.map Prod.fst = ["svc-a", "svc-b"]) :=
  ⟨by decide, claim_C4 mgrTwo ["svc-a", "svc-b"] false false 10 false worldTwo (by decide)⟩


/-! ## Claim C8: restart semantics per item -/

/-- C8: for a requested name whose container exists but is not running,
`restart_accessories` with `force_restart` unset records the non-fatal "is
not running" message for that name and leaves the runtime untouched (the
container is not started); with `force_restart` set it restarts the
container into the running state regardless of its prior status. -/
theorem claim_C8 (m : Mgr) (w : World) (name : String) (c : Container) (timeout : Nat)
    (hname : name ≠ "") (hc : w.findContainer name = some c) :
    (c.status ≠ "running" →
      restart_accessories m [name] timeout false false w =
        (m, w, Except.ok [(name, Sum.inr ("Container " ++ name ++ " is not running (status: " ++
          c.status ++ "). Use --force or -f to force restart"))])) ∧
    ∀ raise_errors : Bool, restart_accessories m [name] timeout true raise_errors w =
      (m, w.setStatus name "running", Except.ok [(name, Sum.inl true)]) := by
  constructor
  · intro hst
    unfold restart_accessories
    rw [restartLoop, if_neg hname, hc]
    dsimp only []
    rw [if_pos ⟨hst, by simp⟩]
    rfl
  · intro raise_errors
    unfold restart_accessories
    rw [restartLoop, if_neg hname, hc]
    dsimp only []
    rw [if_neg (by simp)]
    rfl

/-- C8 witness: the exited `svc-b` container is reported "not running" and
left untouched without force, and restarted with force. -/
theorem claim_C8_witness :
    (("svc-b" : String) ≠ "" ∧ worldStopped.findContainer "svc-b" =
        some { name := "svc-b", id := "idb", status := "exited", image := "img" } ∧
      ({ name := "svc-b", id := "idb", status := "exited", image := "img" } :
          Container).status ≠ "running") ∧
      restart_accessories mgrTwo ["svc-b"] 10 false false worldStopped =
        (mgrTwo, worldStopped, Except.ok [("svc-b", Sum.inr
          "Container svc-b is not running (status: exited). Use --force or -f to force restart")]) ∧
      restart_accessories mgrTwo ["svc-b"] 10 true false worldStopped =
        (mgrTwo, worldStopped.setStatus "svc-b" "running",
          Except.ok [("svc-b", Sum.inl true)]) := by
  refine ⟨⟨by decide, rfl, by decide⟩, ?_, ?_⟩
  · exact (claim_C8 mgrTwo worldStopped "svc-b"
      { name := "svc-b", id := "idb", status := "exited", image := "img" } 10
      (by decide) rfl).1 (by decide)
  · exact (claim_C8 mgrTwo worldStopped "svc-b"
      { name := "svc-b", id := "idb", status := "exited", image := "img" } 10
      (by decide) rfl).2 false

/-! ## Claim C3: createOrReuse is idempotent -/

theorem prod3_eq {α β γ : Type} {a a2 : α} {b b2 : β} {c c2 : γ}
    (h : (a, b, c) = (a2, b2, c2)) : a = a2 ∧ b = b2 ∧ c = c2 := by
  simp only [Prod.mk.injEq] at h
  exact ⟨h.1, h.2.1, h.2.2⟩

theorem find?_name_set {l : List Container} {name st : String} {c : Container}
    (h : l.find? (fun x => x.name = name) = some c) :
    (l.map (fun x => if x.name = name then { x with status := st } else x)).find?
        (fun x => x.name = name) = some { c with status := st } := by
  induction l with
  | nil => cases h
  | cons a l ih =>
      by_cases ha : a.name = name
      · rw [List.find?_cons_of_pos _ (by simpa using ha)] at h
        injection h with h
        subst h
        rw [List.map_cons, if_pos ha, List.find?_cons_of_pos _ (by simpa using ha)]
      · rw [List.find?_cons_of_neg _ (by simpa using ha)] at h
        rw [List.map_cons, if_neg ha, List.find?_cons_of_neg _ (by simpa using ha)]
        exact ih h

theorem ensure_network_frame (nn : String) (w : World) :
    (ensure_network nn w).1.containers = w.containers ∧
      (ensure_network nn w).1.createCount = w.createCount ∧
      (ensure_network nn w).1.nextId = w.nextId := by
  unfold ensure_network
  by_cases h : nn ∈ w.networks
  · rw [if_pos h]
    exact ⟨rfl, rfl, rfl⟩
  · rw [if_neg h]
    cases hl : w.netCreateErrors.lookup nn with
    | none => exact ⟨rfl, rfl, rfl⟩
    | some expl => exact ⟨rfl, rfl, rfl⟩

theorem pull_image_frame (img : String) (w : World) :
    (pull_image img w).1.containers = w.containers ∧
      (pull_image img w).1.createCount = w.createCount ∧
      (pull_image img w).1.nextId = w.nextId ∧
      (pull_image img w).1.runErrors = w.runErrors := by
  unfold pull_image
  by_cases h : img ∈ w.images
  · rw [if_pos h]
    exact ⟨rfl, rfl, rfl, rfl⟩
  · rw [if_neg h]
    cases hl : w.pullErrors.lookup img with
    | none => exact ⟨rfl, rfl, rfl, rfl⟩
    | some expl => exact ⟨rfl, rfl, rfl, rfl⟩

/-- C3: `create_accessory` is idempotent.  If a call succeeds (returning the
container `c`), then an immediately repeated call with no intervening runtime
change finds `c` running, returns it unchanged (the Skipped path), performs
no runtime effect (the world is returned exactly as it was), and in
particular at most one `containers.run` creation happens across both calls. -/
theorem claim_C3 (m : Mgr) (config : AccessoryConfig) (service_name : String)
    (w w1 : World) (c : Container)
    (h : create_accessory m config service_name w = (m, w1, Except.ok c)) :
    create_accessory m config service_name w1 = (m, w1, Except.ok c) ∧
      w1.createCount ≤ w.createCount + 1 := by
  unfold create_accessory at h ⊢
  dsimp only [] at h ⊢
  cases hf : w.findContainer (config.service.getD ("asantiya-" ++ service_name)) with
  | some existing =>
      rw [hf] at h
      dsimp only [] at h
      by_cases hrun : existing.status = "running"
      · rw [if_pos hrun] at h
        rcases prod3_eq h with ⟨-, hw, hr⟩
        have hcx : existing = c := by simpa using hr
        subst hw
        subst hcx
        constructor
        · rw [hf]
          dsimp only []
          rw [if_pos hrun]
        · omega
      · rw [if_neg hrun] at h
        rcases prod3_eq h with ⟨-, hw, hr⟩
        have hcx : { existing with status := "running" } = c := by simpa using hr
        subst hw
        subst hcx
        constructor
        · have hf2 : (w.setStatus (config.service.getD ("asantiya-" ++ service_name))
              "running").findContainer (config.service.getD ("asantiya-" ++ service_name)) =
              some { existing with status := "running" } := find?_name_set hf
          rw [hf2]
          dsimp only []
          rw [if_pos rfl]
        · simp only [World.setStatus]
          omega
  | none =>
      rw [hf] at h
      dsimp only [] at h
      rcases hen : ensure_network config.network w with ⟨wa, ra⟩
      rw [hen] at h
      have hena := ensure_network_frame config.network w
      rw [hen] at hena
      cases ra with
      | error e =>
          dsimp only [] at h
          rcases prod3_eq h with ⟨-, -, hr⟩
          cases hr
      | ok u =>
          dsimp only [] at h
          rcases hpi : pull_image config.image wa with ⟨wb, rb⟩
          rw [hpi] at h
          have hpia := pull_image_frame config.image wa
          rw [hpi] at hpia
          cases rb with
          | error e =>
              cases e <;> dsimp only [] at h <;>
                (rcases prod3_eq h with ⟨-, -, hr⟩; cases hr)
          | ok u2 =>
              dsimp only [] at h
              cases hre : wb.runErrors.lookup
                  (config.service.getD ("asantiya-" ++ service_name)) with
              | some expl =>
                  rw [hre] at h
                  dsimp only [] at h
                  rcases prod3_eq h with ⟨-, -, hr⟩
                  cases hr
              | none =>
                  rw [hre] at h
                  dsimp only [] at h
                  rcases prod3_eq h with ⟨-, hw, hr⟩
                  have hcx : (⟨config.service.getD ("asantiya-" ++ service_name),
                      "cid" ++ toString wb.nextId, "running", config.image⟩ : Container) =
                      c := by simpa using hr
                  subst hw
                  subst hcx
                  constructor
                  · have hwb : wb.containers = w.containers := by
                      rw [hpia.1, hena.1]
                    have hf2 : World.findContainer
                        { wb with
                          containers := wb.containers ++
                            [⟨config.service.getD ("asantiya-" ++ service_name),
                              "cid" ++ toString wb.nextId, "running", config.image⟩],
                          nextId := wb.nextId + 1, createCount := wb.createCount + 1 }
                        (config.service.getD ("asantiya-" ++ service_name)) =
                        some (⟨config.service.getD ("asantiya-" ++ service_name),
                          "cid" ++ toString wb.nextId, "running", config.image⟩ :
                            Container) := by
                      unfold World.findContainer at hf ⊢
                      dsimp only []
                      rw [List.find?_append, hwb, hf]
                      simp
                    rw [hf2]
                    dsimp only []
                    rw [if_pos rfl]
                  · have h1 : wb.createCount = w.createCount := by
                      rw [hpia.2.1, hena.2.1]
                    dsimp only []
                    omega

/-- C3 witness: creating `svc-a` on an empty runtime succeeds, and the
repeated call returns the same container with no second creation. -/
theorem claim_C3_witness :
    (create_accessory mgrTwo accSvcA "a" {} = (mgrTwo, w1C3, Except.ok cC3)) ∧
      (create_accessory mgrTwo accSvcA "a" w1C3 = (mgrTwo, w1C3, Except.ok cC3) ∧
        w1C3.createCount ≤ ({} : World).createCount + 1) :=
  ⟨rfl, claim_C3 mgrTwo accSvcA "a" {} w1C3 cC3 rfl⟩


/-! ## Claim C10: delete_image and the composites -/

theorem stop_accessory_images (cfg : AppConfig) (name : String) (force raise_errors : Bool)
    (w : World) : (stop_accessory cfg name force raise_errors w).1.images = w.images := by
  unfold stop_accessory
  by_cases hn : name = ""
  · rw [if_pos hn]
  · rw [if_neg hn]
    cases hfa : _find_accessory_by_name cfg name with
    | none => rfl
    | some sname =>
        dsimp only []
        cases hfc : w.findContainer sname with
        | none => rfl
        | some c =>
            dsimp only []
            by_cases hs : c.status = "running" <;> by_cases hf2 : force <;>
              simp [hs, hf2, World.setStatus, World.removeContainer]

theorem stopAccessoriesLoop_images (cfg : AppConfig) (force raise_errors : Bool) :
    ∀ (names : List String) (w : World) (acc : List (String × Sum Bool String)),
      (stopAccessoriesLoop cfg force raise_errors names w acc).1.images = w.images := by
  intro names
  induction names with
  | nil => intro w acc; rfl
  | cons n rest ih =>
      intro w acc
      have hsi := stop_accessory_images cfg n force raise_errors w
      rcases hsa : stop_accessory cfg n force raise_errors w with ⟨w2, r⟩
      rw [hsa] at hsi
      cases r with
      | ok u => rw [stopAccessoriesLoop, hsa]; rw [ih w2]; exact hsi
      | error e => rw [stopAccessoriesLoop, hsa]; rw [ih w2]; exact hsi

theorem stop_app_container_images (cfg : AppConfig) (force : Bool) (w : World) :
    (stop_app_container cfg force w).images = w.images := by
  unfold stop_app_container
  cases hfc : w.findContainer cfg.service with
  | none => rfl
  | some c =>
      dsimp only []
      by_cases hs : c.status = "running" <;> by_cases hf2 : force <;>
        simp [hs, hf2, World.setStatus, World.removeContainer]

theorem deploy_app_stops_images (m : Mgr) (w : World) :
    (deploy_app_stops m w).images = w.images := by
  unfold deploy_app_stops
  rw [stopAccessoriesLoop_images, stop_app_container_images]

/-- C10: `delete_image` returns `False` without raising when the named image
does not exist, `True` after a successful removal, and raises `RuntimeError`
exactly when the removal call fails with an `APIError`; consequently
`remove_app` completes normally past a missing application image, and
`deploy_app` proceeds to its build-and-recreate continuation instead of
aborting. -/
theorem claim_C10 :
    (∀ (image_name : String) (force prune : Bool) (w : World), image_name ≠ "" →
        image_name ∉ w.images →
        delete_image image_name force prune w = (w, Except.ok false)) ∧
      (∀ (image_name : String) (force prune : Bool) (w : World), image_name ≠ "" →
        image_name ∈ w.images → w.imageRemoveErrors.lookup image_name = none →
        delete_image image_name force prune w =
          ({ w with images := w.images.filter (fun i => ¬ i = image_name) }, Except.ok true)) ∧
      (∀ (image_name : String) (force prune : Bool) (w : World) (expl : String),
        image_name ≠ "" → image_name ∈ w.images →
        w.imageRemoveErrors.lookup image_name = some expl →
        delete_image image_name force prune w =
          (w, Except.error (PyError.runtimeError
            ("Failed to delete " ++ image_name ++ ": " ++ expl)))) ∧
      (∀ (m : Mgr) (w : World), m.config.image ≠ "" → m.config.image ∉ w.images →
        (remove_app m w).2.2 = Except.ok ()) ∧
      (∀ (m : Mgr) (w : World), m.config.image ≠ "" → m.config.image ∉ w.images →
        deploy_app m w = deploy_app_after_delete m (deploy_app_stops m w)) := by
  have hA : ∀ (image_name : String) (force prune : Bool) (w : World), image_name ≠ "" →
      image_name ∉ w.images →
      delete_image image_name force prune w = (w, Except.ok false) := by
    intro image_name force prune w hne habs
    unfold delete_image
    rw [if_neg hne, if_neg habs]
  refine ⟨hA, ?_, ?_, ?_, ?_⟩
  · intro image_name force prune w hne hmem hnoerr
    unfold delete_image
    rw [if_neg hne, if_pos hmem, hnoerr]
  · intro image_name force prune w expl hne hmem herr
    unfold delete_image
    rw [if_neg hne, if_pos hmem, herr]
  · intro m w hne habs
    unfold remove_app
    dsimp only []
    have habs2 : m.config.image ∉
        ((stopAccessoriesLoop m.config true false (list_accessory_services m.config)
          (stop_app_container m.config true w) []).1).images := by
      rw [stopAccessoriesLoop_images, stop_app_container_images]
      exact habs
    rw [hA m.config.image true true _ hne habs2]
  · intro m w hne habs
    unfold deploy_app
    dsimp only []
    have habs2 : m.config.image ∉ (deploy_app_stops m w).images := by
      rw [deploy_app_stops_images]
      exact habs
    rw [hA m.config.image true true _ hne habs2]

/-- C10 witness: on an empty runtime the application image is absent;
deletion reports `False` without raising and both composites proceed. -/
theorem claim_C10_witness :
    (("img" : String) ≠ "" ∧ ("img" : String) ∉ ({} : World).images ∧
        mgrTwo.config.image ≠ "" ∧ mgrTwo.config.image ∉ ({} : World).images) ∧
      delete_image "img" true true {} = ({}, Except.ok false) ∧
      (remove_app mgrTwo {}).2.2 = Except.ok () ∧
      deploy_app mgrTwo {} = deploy_app_after_delete mgrTwo (deploy_app_stops mgrTwo {}) := by
  refine ⟨⟨by decide, by decide, by decide, by decide⟩, ?_, ?_, ?_⟩
  · exact claim_C10.1 "img" true true {} (by decide) (by decide)
  · exact claim_C10.2.2.2.1 mgrTwo {} (by decide) (by decide)
  · exact claim_C10.2.2.2.2 mgrTwo {} (by decide) (by decide)

/-! ## Claim C1: createAll ordering, fail-fast, and the aggregate error -/

theorem createAllLoop_ok_keys :
    ∀ (names : List String) (m : Mgr) (configs : List (String × AccessoryConfig))
      (w : World) (acc out : List (String × String)),
      (createAllLoop m configs names w acc).2.2 = Except.ok out →
      out.map Prod.fst = acc.map Prod.fst ++ names := by
  intro names
  induction names with
  | nil =>
      intro m configs w acc out h
      simp only [createAllLoop] at h
      injection h with h
      rw [← h]
      simp
  | cons n rest ih =>
      intro m configs w acc out h
      rw [createAllLoop] at h
      cases hl : configs.lookup n with
      | none => rw [hl] at h; dsimp only [] at h; simp at h
      | some config =>
          rw [hl] at h
          dsimp only [] at h
          rcases hc : create_accessory m config n w with ⟨m2, w2, r⟩
          rw [hc] at h
          cases r with
          | ok cont =>
              dsimp only [] at h
              rw [ih m2 configs w2 (acc ++ [(n, cont.id)]) out h]
              simp
          | error e => dsimp only [] at h; simp at h

/-- C1 (as stated) is false in its aggregate-error part: when accessory `a`
fails and a second accessory (depending on `a`) was never attempted, the
raised error is the same string whether that second accessory is named `b` or
`zzz`, and it does not contain the never-attempted name — the error names the
first failed item only, not the items never attempted. -/
theorem claim_C1_counterexample :
    (create_all_accessories (mgrFailA "zzz") worldFailA).2.2 =
        Except.error (PyError.runtimeError
          "Failed to start a. Aborting. Error: Failed to create asantiya-a: boom") ∧
      (create_all_accessories (mgrFailA "b") worldFailA).2.2 =
        (create_all_accessories (mgrFailA "zzz") worldFailA).2.2 ∧
      strContainsSub
        "Failed to start a. Aborting. Error: Failed to create asantiya-a: boom" "zzz" = false :=
  ⟨rfl, rfl, by decide⟩

/-- C1 amended: `create_all_accessories` iterates exactly the resolver's
order (first conjunct); on success the returned ordered map lists precisely
that order (second conjunct); and the first per-item failure aborts the loop
with `RuntimeError("Failed to start <name>. Aborting. Error: <e>")` — the
result is independent of whatever items remain, which are never attempted —
but the error does not name the never-attempted items. -/
theorem claim_C1 :
    (∀ (m : Mgr) (w : World) (l : List String),
        sort_by_dependencies m.config.accessories = Except.ok l →
        create_all_accessories m w = createAllLoop m m.config.accessories l w []) ∧
      (∀ (m : Mgr) (w : World) (out : List (String × String)),
        (create_all_accessories m w).2.2 = Except.ok out →
        sort_by_dependencies m.config.accessories = Except.ok (out.map Prod.fst)) ∧
      (∀ (m : Mgr) (configs : List (String × AccessoryConfig)) (name : String)
        (rest rest2 : List String) (w : World) (acc : List (String × String))
        (config : AccessoryConfig) (e : PyError),
        configs.lookup name = some config →
        (create_accessory m config name w).2.2 = Except.error e →
        createAllLoop m configs (name :: rest) w acc =
            createAllLoop m configs (name :: rest2) w acc ∧
          createAllLoop m configs (name :: rest) w acc =
            ((create_accessory m config name w).1, (create_accessory m config name w).2.1,
              Except.error (PyError.runtimeError
                ("Failed to start " ++ name ++ ". Aborting. Error: " ++ e.str)))) := by
  refine ⟨?_, ?_, ?_⟩
  · intro m w l h
    unfold create_all_accessories
    rw [h]
  · intro m w out h
    unfold create_all_accessories at h
    cases hs : sort_by_dependencies m.config.accessories with
    | error e => rw [hs] at h; dsimp only [] at h; simp at h
    | ok l =>
        rw [hs] at h
        dsimp only [] at h
        have hkeys := createAllLoop_ok_keys l m m.config.accessories w [] out h
        rw [hkeys]
        simp
  · intro m configs name rest rest2 w acc config e hl he
    rcases hc : create_accessory m config name w with ⟨m2, w2, r⟩
    rw [hc] at he
    dsimp only [] at he
    subst he
    constructor
    · rw [createAllLoop, hl]
      dsimp only []
      rw [hc]
      rw [createAllLoop, hl]
      dsimp only []
      rw [hc]
    · rw [createAllLoop, hl]
      dsimp only []
      rw [hc]

/-- C1 witness: the three amended conjuncts applied to concrete inputs — the
resolver order is followed for the failing pair, the all-success run returns
the resolver's order, and the failing head aborts identically whatever the
tail is. -/
theorem claim_C1_witness :
    (sort_by_dependencies (mgrFailA "b").config.accessories = Except.ok ["a", "b"] ∧
        (create_all_accessories mgrTwo ({} : World)).2.2 =
          Except.ok [("b", "cid0"), ("a", "cid1")] ∧
        (mgrFailA "b").config.accessories.lookup "a" = some accPlain ∧
        (create_accessory (mgrFailA "b") accPlain "a" worldFailA).2.2 =
          Except.error (PyError.runtimeError "Failed to create asantiya-a: boom")) ∧
      create_all_accessories (mgrFailA "b") worldFailA =
          createAllLoop (mgrFailA "b") (mgrFailA "b").config.accessories ["a", "b"]
            worldFailA [] ∧
      sort_by_dependencies mgrTwo.config.accessories =
          Except.ok ([("b", "cid0"), ("a", "cid1")].map Prod.fst) ∧
      (createAllLoop (mgrFailA "b") (mgrFailA "b").config.accessories ["a", "b"]
            worldFailA [] =
          createAllLoop (mgrFailA "b") (mgrFailA "b").config.accessories ["a"]
            worldFailA [] ∧
        createAllLoop (mgrFailA "b") (mgrFailA "b").config.accessories ["a", "b"]
            worldFailA [] =
          ((create_accessory (mgrFailA "b") accPlain "a" worldFailA).1,
            (create_accessory (mgrFailA "b") accPlain "a" worldFailA).2.1,
            Except.error (PyError.runtimeError
              "Failed to start a. Aborting. Error: Failed to create asantiya-a: boom"))) := by
  refine ⟨⟨rfl, rfl, rfl, rfl⟩, ?_, ?_, ?_⟩
  · exact claim_C1.1 (mgrFailA "b") worldFailA ["a", "b"] rfl
  · exact claim_C1.2.1 mgrTwo {} [("b", "cid0"), ("a", "cid1")] rfl
  · exact claim_C1.2.2 (mgrFailA "b") (mgrFailA "b").config.accessories "a" ["b"] []
      worldFailA [] accPlain (PyError.runtimeError "Failed to create asantiya-a: boom") rfl rfl


/-! ## Claim C9: the reconciler never mutates the configuration -/

theorem create_accessory_fst (m : Mgr) (config : AccessoryConfig) (service_name : String)
    (w : World) : (create_accessory m config service_name w).1 = m := by
  unfold create_accessory
  dsimp only []
  cases hf : w.findContainer (config.service.getD ("asantiya-" ++ service_name)) with
  | some existing =>
      dsimp only []
      by_cases h : existing.status = "running"
      · rw [if_pos h]
      · rw [if_neg h]
  | none =>
      dsimp only []
      rcases hen : ensure_network config.network w with ⟨wa, ra⟩
      cases ra with
      | error e => rfl
      | ok u =>
          dsimp only []
          rcases hpi : pull_image config.image wa with ⟨wb, rb⟩
          cases rb with
          | error e => cases e <;> rfl
          | ok u2 =>
              dsimp only []
              cases hre : wb.runErrors.lookup
                  (config.service.getD ("asantiya-" ++ service_name)) with
              | some expl => rfl
              | none => rfl

theorem createAllLoop_fst :
    ∀ (names : List String) (m : Mgr) (configs : List (String × AccessoryConfig))
      (w : World) (acc : List (String × String)),
      (createAllLoop m configs names w acc).1 = m := by
  intro names
  induction names with
  | nil => intro m configs w acc; rfl
  | cons n rest ih =>
      intro m configs w acc
      rw [createAllLoop]
      cases hl : configs.lookup n with
      | none => rfl
      | some config =>
          dsimp only []
          have hcm := create_accessory_fst m config n w
          rcases hc : create_accessory m config n w with ⟨m2, w2, r⟩
          rw [hc] at hcm
          cases r with
          | ok cont =>
              dsimp only []
              rw [ih m2 configs w2 (acc ++ [(n, cont.id)])]
              exact hcm
          | error e => exact hcm

theorem reboot_single_accessory_fst (m : Mgr) (name : String) (force : Bool) (w : World) :
    (reboot_single_accessory m name force w).1 = m := by
  unfold reboot_single_accessory
  cases hl : m.config.accessories.lookup name with
  | none => rfl
  | some a =>
      dsimp only []
      split
      · next m2 w2 x heq =>
          have h2 := congrArg (fun t => t.1) heq
          try dsimp only [] at h2
          rw [create_accessory_fst] at h2
          simpa using h2.symm
      · next m2 w2 e heq =>
          have h2 := congrArg (fun t => t.1) heq
          try dsimp only [] at h2
          rw [create_accessory_fst] at h2
          simpa using h2.symm

theorem rebootAllLoop_fst (force : Bool) :
    ∀ (names : List String) (m : Mgr) (w : World),
      (rebootAllLoop force m names w).1 = m := by
  intro names
  induction names with
  | nil => intro m w; rfl
  | cons n rest ih =>
      intro m w
      rw [rebootAllLoop]
      rw [ih]
      exact reboot_single_accessory_fst m n force w

/-- C9: every reconciler operation returns with the loaded configuration
exactly as it received it — the embedded methods thread `self` (the `Mgr`
holding the `AppConfig`, including every accessory's `depends_on`) through
every branch and sub-call and hand it back unchanged; the resolver in
particular builds its working dependency sets as copies (`graphOf`), so no
operation writes to the configuration. -/
theorem claim_C9 :
    (∀ (m : Mgr) (config : AccessoryConfig) (service_name : String) (w : World),
        (create_accessory m config service_name w).1 = m) ∧
      (∀ (m : Mgr) (w : World), (create_all_accessories m w).1 = m) ∧
      (∀ (m : Mgr) (names : List String) (force raise_errors : Bool) (w : World),
        (stop_accessories m names force raise_errors w).1 = m) ∧
      (∀ (m : Mgr) (names : List String) (timeout : Nat) (force_restart raise_errors : Bool)
        (w : World), (restart_accessories m names timeout force_restart raise_errors w).1 = m) ∧
      (∀ (m : Mgr) (accessory_name : String) (force : Bool) (w : World),
        (reboot_single_accessory m accessory_name force w).1 = m) ∧
      (∀ (m : Mgr) (force : Bool) (w : World), (reboot_all_accessories m force w).1 = m) ∧
      (∀ (m : Mgr) (w : World), (list_configured_containers m w).1 = m) := by
  refine ⟨create_accessory_fst, ?_, ?_, ?_, reboot_single_accessory_fst, ?_, ?_⟩
  · intro m w
    unfold create_all_accessories
    cases hs : sort_by_dependencies m.config.accessories with
    | error e => rfl
    | ok l => exact createAllLoop_fst l m m.config.accessories w []
  · intro m names force raise_errors w
    rfl
  · intro m names timeout force_restart raise_errors w
    rfl
  · intro m force w
    exact rebootAllLoop_fst force (m.config.accessories.map Prod.fst) m w
  · intro m w
    rfl


end Asantiya
